import Mathlib

/-! Verification of the BlockGraph graph-growth engine.

This file shallowly embeds the growth step implemented by the Python
function grow_df in utils.py (lines 40-128). Pandas dataframes of
transfer records become lists of TransferRow; Python dicts become
insertion-ordered association lists (LMap) with dict.update semantics;
the flipside sdk is an abstract oracle (Sdk) answering the three query
shapes; Python None / NaN becomes Option.none; the AttributeError that
Python raises when calling startswith on None is modelled by returning
Except.error.
-/

set_option autoImplicit false

namespace BlockGraph

/-- One row of the transfer-query result (ethereum token / ETH transfers).
Nullable fields are Option; json null and a missing key both become none. -/
structure TransferRow where
  symbol : Option String
  decimals : Option Int
  amount_usd : Option Int
  tx_hash : Option String
  from_address : String
  to_address : String
deriving DecidableEq, Repr

/-- One row of the label-query result (dim_labels). -/
structure LabelRow where
  address : String
  label : Option String
deriving DecidableEq, Repr

/-- One row of the contract-query result (dim_contracts; symbol is aliased
to label in the SQL). -/
structure ContractRow where
  address : String
  name : Option String
  label : Option String
deriving DecidableEq, Repr

/-- A Python dict from address to label value, as an insertion-ordered
association list. Values are Option String because a label can be None. -/
abbrev LMap : Type := List (String × Option String)

/-- Dict lookup: value of the first entry with the given key. -/
def dget : LMap → String → Option (Option String)
  | [], _ => none
  | p :: rest, k => if p.1 = k then some p.2 else dget rest k

/-- Python `k in d.keys()`. -/
def dhas (d : LMap) (k : String) : Bool :=
  (dget d k).isSome

/-- Replace the value of every entry whose key is k (keys of a Python dict
are unique, so at most one entry is replaced). -/
def dsetAll : LMap → String → Option String → LMap
  | [], _, _ => []
  | p :: rest, k, v => (if p.1 = k then (k, v) else p) :: dsetAll rest k v

/-- Python `d[k] = v`: overwrite in place if the key exists, else append. -/
def dinsert (d : LMap) (k : String) (v : Option String) : LMap :=
  if dhas d k then dsetAll d k v else d ++ [(k, v)]

/-- Python `d.update(kvs)` where kvs is given as a list of pairs. -/
def dupdate (d : LMap) (kvs : List (String × Option String)) : LMap :=
  kvs.foldl (fun acc p => dinsert acc p.1 p.2) d

/-- Order-insensitive model of Python `list(set(l))`: keep the first
occurrence of each element (also models pandas drop_duplicates, whose
default keeps the first fully identical row). -/
def dedupGo {α : Type} [DecidableEq α] : List α → List α → List α
  | _, [] => []
  | seen, x :: xs =>
    if x ∈ seen then dedupGo seen xs else x :: dedupGo (x :: seen) xs

/-- Deduplicate a list keeping first occurrences. -/
def dedupF {α : Type} [DecidableEq α] (l : List α) : List α :=
  dedupGo [] l

/-- utils.py line 41: remove exclusion-set members from the frontier. -/
def filterSeeds (seeds nogrow : List String) : List String :=
  seeds.filter (fun x => decide (x ∉ nogrow))

/-- utils.py lines 55-56: when drop_spam, drop rows whose symbol is null. -/
def dropNullSymbol (drop_spam : Bool) (rows : List TransferRow) : List TransferRow :=
  if drop_spam then rows.filter (fun r => !r.symbol.isNone) else rows

/-- utils.py line 59: drop rows whose symbol is a known spam symbol
(a null symbol is never a member of the spam list, as in pandas isin). -/
def dropSpamSymbols (spam_symbols : List String) (rows : List TransferRow) : List TransferRow :=
  rows.filter (fun r =>
    match r.symbol with
    | some s => decide (s ∉ spam_symbols)
    | none => true)

/-- utils.py line 61: drop rows whose decimals equal zero (a null decimals
value compares unequal to zero in pandas and is kept). -/
def dropZeroDecimals (rows : List TransferRow) : List TransferRow :=
  rows.filter (fun r => decide (r.decimals ≠ some 0))

/-- utils.py lines 54-61: the whole spam filter pipeline. -/
def filterSpam (drop_spam : Bool) (spam_symbols : List String)
    (rows : List TransferRow) : List TransferRow :=
  dropZeroDecimals (dropSpamSymbols spam_symbols (dropNullSymbol drop_spam rows))

/-- utils.py lines 64-65: unique endpoint addresses of the surviving rows. -/
def endpointsOf (rows : List TransferRow) : List String :=
  dedupF (rows.map (fun r => r.from_address) ++ rows.map (fun r => r.to_address))

/-- utils.py line 79: contract rows whose label field is non-null, as
dict-update pairs. -/
def contractPairs (crows : List ContractRow) : List (String × Option String) :=
  (crows.filter (fun r => decide (r.label ≠ none))).map (fun r => (r.address, r.label))

/-- utils.py line 81: unique addresses of the contract rows. -/
def contractAddrs (crows : List ContractRow) : List String :=
  dedupF (crows.map (fun r => r.address))

/-- utils.py line 93: label rows as dict-update pairs (the label value is
taken as is, null included). -/
def labelPairs (lrows : List LabelRow) : List (String × Option String) :=
  lrows.map (fun r => (r.address, r.label))

/-- Python s.startswith("0x"), computed on the character list so that it
reduces definitionally. -/
def starts0x (s : String) : Bool :=
  decide (s.data.take 2 = ['0', 'x'])

/-- utils.py line 96: Python x[0:3] + x[-3:], computed on the character
list (for a string shorter than 3, both slices are the whole string, as in
Python). -/
def shortLabel (x : String) : String :=
  String.mk (x.data.take 3 ++ x.data.drop (x.data.length - 3))

/-- utils.py line 96: synthesized short labels for the endpoint addresses
that are still missing from the dict. -/
def syntheticPairs (newAddrs : List String) (d : LMap) : List (String × Option String) :=
  (newAddrs.filter (fun x => !dhas d x)).map (fun x => (x, some (shortLabel x)))

/-- utils.py lines 67-99: build the new label dict from the contract-query
result, the label-query result, the synthesized fallbacks, and finally the
prior dict (which overwrites everything: prior knowledge is sticky). -/
def newLabelMap (adl : LMap) (contractsRes : Option (List ContractRow))
    (labelsRes : Option (List LabelRow)) (newAddrs : List String) : LMap :=
  let adl1 : LMap :=
    match contractsRes with
    | none => []
    | some crows => dupdate [] (contractPairs crows)
  let adl2 : LMap :=
    match labelsRes with
    | none => adl1
    | some lrows => dupdate adl1 (labelPairs lrows)
  let adl3 : LMap := dupdate adl2 (syntheticPairs newAddrs adl2)
  dupdate adl3 adl

/-- utils.py lines 74-82: the new contract list (new unique contract
addresses prepended to the input list; unchanged if the query found none). -/
def newContracts (contracts : List String)
    (contractsRes : Option (List ContractRow)) : List String :=
  match contractsRes with
  | none => contracts
  | some crows => contractAddrs crows ++ contracts

/-- The ledger client (flipside sdk), abstracted as one oracle per query
shape; none models a result whose records field is null. -/
structure Sdk where
  graphQuery : List String → String → String → Option (List TransferRow)
  contractsQuery : List String → Option (List ContractRow)
  labelsQuery : List String → Option (List LabelRow)

/-- The arguments of grow_df (utils.py lines 9-19). -/
structure GrowInput where
  seed_addresses : List String
  nogrow_addresses : List String
  sdk : Sdk
  address_label_dict : LMap
  contracts : List String
  spam_symbols : List String
  df : List TransferRow
  drop_spam : Bool
  limit_connections : String
  rank_by : String
  stop_at_label : Bool

/-- The unique endpoint addresses of the records surviving the spam filter,
the set sent to the contract and label queries (utils.py lines 54-65). -/
def candidateAddrs (i : GrowInput) (recs : List TransferRow) : List String :=
  endpointsOf (filterSpam i.drop_spam i.spam_symbols recs)

/-- utils.py lines 40-104: everything grow_df computes before the frontier:
the new label dict, the new contract list and the merged dataframe. -/
def grow_core (i : GrowInput) : LMap × List String × List TransferRow :=
  match i.sdk.graphQuery (filterSeeds i.seed_addresses i.nogrow_addresses)
      i.limit_connections i.rank_by with
  | none => (i.address_label_dict, i.contracts, i.df)
  | some recs =>
    (newLabelMap i.address_label_dict (i.sdk.contractsQuery (candidateAddrs i recs))
        (i.sdk.labelsQuery (candidateAddrs i recs)) (candidateAddrs i recs),
     newContracts i.contracts (i.sdk.contractsQuery (candidateAddrs i recs)),
     dedupF (i.df ++ filterSpam i.drop_spam i.spam_symbols recs))

/-- utils.py lines 119-120: the list comprehension
[add for add, label in dict.items() if label.startswith('0x')].
An entry whose label is None makes Python raise AttributeError; that is the
error case. -/
def syntheticKeys : LMap → Except String (List String)
  | [] => Except.ok []
  | (a, some l) :: rest =>
    (syntheticKeys rest).map (fun r => if starts0x l then a :: r else r)
  | (_, none) :: _ =>
    Except.error "AttributeError: NoneType object has no attribute startswith"

/-- utils.py lines 119-122: candidate addresses for the next frontier. -/
def frontierAdds (d : LMap) (stop_at_label : Bool) : Except String (List String) :=
  if stop_at_label then syntheticKeys d else Except.ok (d.map (fun p => p.1))

/-- utils.py lines 108-113: build the reverse map label -> addresses. -/
def revAdd (m : List (Option String × List String)) (v : Option String)
    (k : String) : List (Option String × List String) :=
  if m.any (fun q => decide (q.1 = v)) then
    m.map (fun q => if q.1 = v then (v, q.2 ++ [k]) else q)
  else m ++ [(v, [k])]

/-- utils.py lines 107-113: the label_address_dict. -/
def reverseMap (d : LMap) : List (Option String × List String) :=
  d.foldl (fun m p => revAdd m p.2 p.1) []

/-- The six-component return tuple of grow_df (utils.py line 128). -/
structure GrowResult where
  seeds : List String
  nogrow : List String
  labels : LMap
  revLabels : List (Option String × List String)
  contracts : List String
  df : List TransferRow
deriving DecidableEq, Repr

/-- utils.py lines 40-128: one growth step. Except.error models the Python
exception raised at line 120 when a dict value is None. -/
def grow_df (i : GrowInput) : Except String GrowResult :=
  match frontierAdds (grow_core i).fst i.stop_at_label with
  | Except.error e => Except.error e
  | Except.ok adds =>
    Except.ok
      { seeds := (adds.filter (fun a =>
          decide (a ∉ filterSeeds i.seed_addresses i.nogrow_addresses))).filter
            (fun a => decide (a ∉ i.nogrow_addresses)),
        nogrow := i.nogrow_addresses,
        labels := (grow_core i).fst,
        revLabels := reverseMap (grow_core i).fst,
        contracts := (grow_core i).snd.fst,
        df := (grow_core i).snd.snd }

/-- One call to the ledger client (sdk.query), identified by query shape
and the address list interpolated into the SQL text. -/
inductive QueryCall where
  | graph (addresses : List String) (limit rank_by : String)
  | contractsQ (addresses : List String)
  | labelsQ (addresses : List String)
deriving DecidableEq, Repr

/-- The ledger-client calls grow_df issues, in order (utils.py lines 45,
71, 86): the transfer query is always issued, the contract and label
queries only when the transfer query found records. -/
def grow_calls (i : GrowInput) : List QueryCall :=
  match i.sdk.graphQuery (filterSeeds i.seed_addresses i.nogrow_addresses)
      i.limit_connections i.rank_by with
  | none =>
    [QueryCall.graph (filterSeeds i.seed_addresses i.nogrow_addresses)
      i.limit_connections i.rank_by]
  | some recs =>
    [QueryCall.graph (filterSeeds i.seed_addresses i.nogrow_addresses)
      i.limit_connections i.rank_by,
     QueryCall.contractsQ (candidateAddrs i recs),
     QueryCall.labelsQ (candidateAddrs i recs)]

/-- The next frontier of a growth-step result (empty on error). -/
def resultSeeds : Except String GrowResult → List String
  | Except.ok r => r.seeds
  | Except.error _ => []

/-- The exclusion set of a growth-step result (empty on error). -/
def resultNogrow : Except String GrowResult → List String
  | Except.ok r => r.nogrow
  | Except.error _ => []

/-- The contract list of a growth-step result (empty on error). -/
def resultContracts : Except String GrowResult → List String
  | Except.ok r => r.contracts
  | Except.error _ => []

/-- The merged dataset of a growth-step result (empty on error). -/
def resultDf : Except String GrowResult → List TransferRow
  | Except.ok r => r.df
  | Except.error _ => []

/-- The label map of a growth-step result (empty on error). -/
def resultLabels : Except String GrowResult → LMap
  | Except.ok r => r.labels
  | Except.error _ => []

/-! Concrete fixtures for counterexamples and witnesses. -/

/-- An ETH transfer from 0xaaaa to 0xbbbb. -/
def rowAB : TransferRow :=
  { symbol := some "ETH"
    decimals := some 18
    amount_usd := some 100
    tx_hash := some "h1"
    from_address := "0xaaaa"
    to_address := "0xbbbb" }

/-- The same transfer hash as rowAB with a different usd amount. -/
def rowAB2 : TransferRow :=
  { rowAB with amount_usd := some 200 }

/-- A ledger client that reports no records for every query. -/
def sdkNone : Sdk :=
  { graphQuery := fun _ _ _ => none
    contractsQuery := fun _ => none
    labelsQuery := fun _ => none }

/-- A growth-step input with one seed, empty state and a no-data ledger. -/
def iC1 : GrowInput :=
  { seed_addresses := ["0xaaaa"]
    nogrow_addresses := []
    sdk := sdkNone
    address_label_dict := []
    contracts := []
    spam_symbols := []
    df := []
    drop_spam := true
    limit_connections := "500"
    rank_by := "amount_usd"
    stop_at_label := true }

/-- A ledger client returning one transfer and one label-less contract row
for 0xbbbb. -/
def sdkC2 : Sdk :=
  { graphQuery := fun _ _ _ => some [rowAB]
    contractsQuery := fun _ => some [{ address := "0xbbbb", name := none, label := none }]
    labelsQuery := fun _ => none }

/-- Input whose transfer endpoint 0xbbbb is reported to be a contract. -/
def iC2 : GrowInput :=
  { iC1 with sdk := sdkC2 }

/-- A ledger client returning one transfer that repeats the tx_hash of a
previously accumulated record with a different usd amount. -/
def sdkC3 : Sdk :=
  { graphQuery := fun _ _ _ => some [rowAB2]
    contractsQuery := fun _ => none
    labelsQuery := fun _ => none }

/-- Input whose prior dataset already holds tx_hash h1. -/
def iC3 : GrowInput :=
  { iC1 with
    sdk := sdkC3
    df := [rowAB] }

/-- Input whose whole frontier is already excluded, with a prior label map
holding one synthetic entry. -/
def iC6 : GrowInput :=
  { iC1 with
    nogrow_addresses := ["0xaaaa"]
    address_label_dict := [("0xbbbb", some "0xbbbb")] }

/-- A ledger client returning one transfer and a label row whose label
field is null. -/
def sdkC9 : Sdk :=
  { graphQuery := fun _ _ _ => some [rowAB]
    contractsQuery := fun _ => none
    labelsQuery := fun _ => some [{ address := "0xbbbb", label := none }] }

/-- Input for which the label query returns a malformed (null-label) row. -/
def iC9 : GrowInput :=
  { iC1 with sdk := sdkC9 }

/-- Input with a prior label entry for 0xcccc. -/
def iC4 : GrowInput :=
  { iC1 with address_label_dict := [("0xcccc", some "Binance")] }

/-- Input with a nonempty prior contract set. -/
def iC8 : GrowInput :=
  { iC1 with contracts := ["0xdddd"] }

/-- Input with a nonempty exclusion set disjoint from the frontier. -/
def iC10 : GrowInput :=
  { iC1 with nogrow_addresses := ["0xeeee"] }

/-- Two transfers: 0xaaaa to 0xbbbb and 0xcccc to 0xdddd. -/
def recsC5 : List TransferRow :=
  [rowAB,
   { symbol := some "ETH"
     decimals := some 18
     amount_usd := some 50
     tx_hash := some "h2"
     from_address := "0xcccc"
     to_address := "0xdddd" }]

/-- Contract rows: a labelled contract 0xdddd and a null-label row 0xaaaa. -/
def crowsC5 : List ContractRow :=
  [{ address := "0xdddd", name := some "TokenD", label := some "TokenD" },
   { address := "0xaaaa", name := none, label := none }]

/-- Label rows: 0xbbbb (also known from the prior map) and 0xcccc. -/
def lrowsC5 : List LabelRow :=
  [{ address := "0xbbbb", label := some "Binance" },
   { address := "0xcccc", label := some "Coinbase" }]

/-- A ledger client answering all three query shapes. -/
def sdkC5 : Sdk :=
  { graphQuery := fun _ _ _ => some recsC5
    contractsQuery := fun _ => some crowsC5
    labelsQuery := fun _ => some lrowsC5 }

/-- Input exercising all four precedence levels of the classifier. -/
def iC5 : GrowInput :=
  { iC1 with
    sdk := sdkC5
    address_label_dict := [("0xbbbb", some "Prior")] }

/-! Lemmas about the dict model. -/

theorem dupdate_nil (d : LMap) : dupdate d [] = d := rfl

theorem dupdate_cons (d : LMap) (p : String × Option String)
    (kvs : List (String × Option String)) :
    dupdate d (p :: kvs) = dupdate (dinsert d p.1 p.2) kvs := rfl

theorem dget_some_mem {d : LMap} {a : String} {v : Option String}
    (h : dget d a = some v) : (a, v) ∈ d := by
  induction d with
  | nil => simp [dget] at h
  | cons p rest ih =>
    rw [dget] at h
    by_cases hp : p.1 = a
    · rw [if_pos hp] at h
      have hv : p.2 = v := Option.some.inj h
      have hpav : p = (a, v) := by
        cases p
        simp_all
      rw [← hpav]
      exact List.mem_cons_self p rest
    · rw [if_neg hp] at h
      exact List.mem_cons_of_mem p (ih h)

theorem dhas_false_iff {d : LMap} {a : String} :
    dhas d a = false ↔ dget d a = none := by
  unfold dhas
  cases dget d a <;> simp

theorem dhas_false_forall {d : LMap} {a : String}
    (h : dhas d a = false) : ∀ p ∈ d, p.1 ≠ a := by
  rw [dhas_false_iff] at h
  induction d with
  | nil => simp
  | cons p rest ih =>
    rw [dget] at h
    by_cases hp : p.1 = a
    · rw [if_pos hp] at h
      simp at h
    · rw [if_neg hp] at h
      intro q hq
      rcases List.mem_cons.mp hq with hq | hq
      · rw [hq]; exact hp
      · exact ih h q hq

theorem dget_append (d e : LMap) (a : String) :
    dget (d ++ e) a = ((dget d a).map some).getD (dget e a) := by
  induction d with
  | nil => simp [dget]
  | cons p rest ih =>
    by_cases hp : p.1 = a
    · simp [dget, hp]
    · simp [dget, hp, ih]

theorem dget_dsetAll_self {d : LMap} {k : String} (v : Option String)
    (h : dhas d k = true) : dget (dsetAll d k v) k = some v := by
  induction d with
  | nil => simp [dhas, dget] at h
  | cons p rest ih =>
    by_cases hp : p.1 = k
    · simp [dsetAll, dget, hp]
    · have hh : dhas rest k = true := by
        unfold dhas at h ⊢
        rw [dget, if_neg hp] at h
        exact h
      simp [dsetAll, dget, hp, ih hh]

theorem dget_dsetAll_ne {a k : String} (d : LMap) (v : Option String)
    (h : a ≠ k) : dget (dsetAll d k v) a = dget d a := by
  induction d with
  | nil => simp [dsetAll]
  | cons p rest ih =>
    by_cases hp : p.1 = k
    · have : ¬ (k = a) := fun he => h he.symm
      simp [dsetAll, dget, hp, this, ih]
    · simp [dsetAll, dget, hp, ih]

theorem dget_dinsert_self (d : LMap) (k : String) (v : Option String) :
    dget (dinsert d k v) k = some v := by
  unfold dinsert
  by_cases h : dhas d k = true
  · rw [if_pos h]
    exact dget_dsetAll_self v h
  · have hf : dhas d k = false := by simpa using h
    rw [if_neg (by simp [hf])]
    rw [dget_append, dhas_false_iff.mp hf]
    simp [dget]

theorem dget_dinsert_ne {a k : String} (d : LMap) (v : Option String)
    (h : a ≠ k) : dget (dinsert d k v) a = dget d a := by
  have hka : ¬(k = a) := fun he => h he.symm
  unfold dinsert
  by_cases hk : dhas d k = true
  · rw [if_pos hk]
    exact dget_dsetAll_ne d v h
  · rw [if_neg hk, dget_append]
    have h1 : dget [(k, v)] a = none := by simp [dget, hka]
    rw [h1]
    cases dget d a <;> simp

theorem dhas_dinsert_self (d : LMap) (k : String) (v : Option String) :
    dhas (dinsert d k v) k = true := by
  unfold dhas
  rw [dget_dinsert_self]
  rfl

theorem dhas_dinsert_mono {d : LMap} {a : String} (k : String) (v : Option String)
    (h : dhas d a = true) : dhas (dinsert d k v) a = true := by
  by_cases hak : a = k
  · rw [hak]; exact dhas_dinsert_self d k v
  · unfold dhas at h ⊢
    rw [dget_dinsert_ne d v hak]
    exact h

theorem dget_dupdate_not_mem {a : String} {kvs : List (String × Option String)}
    (d : LMap) (h : ∀ p ∈ kvs, p.1 ≠ a) :
    dget (dupdate d kvs) a = dget d a := by
  induction kvs generalizing d with
  | nil => rfl
  | cons p rest ih =>
    rw [dupdate_cons]
    rw [ih (dinsert d p.1 p.2) (fun q hq => h q (List.mem_cons_of_mem p hq))]
    exact dget_dinsert_ne d p.2 (fun he => h p (List.mem_cons_self p rest) he.symm)

theorem dget_dupdate_mem {a : String} {v : Option String} :
    ∀ {kvs : List (String × Option String)} (d : LMap),
      (kvs.map Prod.fst).Nodup → (a, v) ∈ kvs →
      dget (dupdate d kvs) a = some v := by
  intro kvs
  induction kvs with
  | nil =>
    intro d _ h
    simp at h
  | cons p rest ih =>
    obtain ⟨k, w⟩ := p
    intro d hnd h
    rw [dupdate_cons]
    rw [List.map_cons, List.nodup_cons] at hnd
    rcases List.mem_cons.mp h with h | h
    · injection h with h1 h2
      subst h1
      subst h2
      have hrest : ∀ q ∈ rest, q.1 ≠ a := by
        intro q hq hqa
        exact hnd.1 (List.mem_map.mpr ⟨q, hq, hqa⟩)
      rw [dget_dupdate_not_mem _ hrest]
      exact dget_dinsert_self d a v
    · exact ih (dinsert d k w) hnd.2 h

theorem dhas_dupdate_mono {a : String}
    {kvs : List (String × Option String)} :
    ∀ {d : LMap}, dhas d a = true → dhas (dupdate d kvs) a = true := by
  induction kvs with
  | nil =>
    intro d h
    exact h
  | cons p rest ih =>
    intro d h
    rw [dupdate_cons]
    exact ih (dhas_dinsert_mono p.1 p.2 h)

theorem dhas_dupdate_of_mem {a : String} {v : Option String} :
    ∀ {kvs : List (String × Option String)} (d : LMap), (a, v) ∈ kvs →
      dhas (dupdate d kvs) a = true := by
  intro kvs
  induction kvs with
  | nil =>
    intro d h
    simp at h
  | cons p rest ih =>
    intro d h
    rw [dupdate_cons]
    rcases List.mem_cons.mp h with h | h
    · exact dhas_dupdate_mono (by rw [← h]; exact dhas_dinsert_self d a v)
    · exact ih (dinsert d p.1 p.2) h

/-! Lemmas about deduplication and the frontier computation. -/

theorem mem_dedupGo {α : Type} [DecidableEq α] (a : α) :
    ∀ (l seen : List α), a ∈ dedupGo seen l ↔ a ∈ l ∧ a ∉ seen := by
  intro l
  induction l with
  | nil => simp [dedupGo]
  | cons x xs ih =>
    intro seen
    rw [dedupGo]
    by_cases hx : x ∈ seen
    · rw [if_pos hx, ih]
      constructor
      · rintro ⟨h1, h2⟩
        exact ⟨List.mem_cons_of_mem x h1, h2⟩
      · rintro ⟨h1, h2⟩
        rcases List.mem_cons.mp h1 with h1 | h1
        · exact absurd (h1 ▸ hx) h2
        · exact ⟨h1, h2⟩
    · rw [if_neg hx]
      by_cases hax : a = x
      · subst hax
        simp [hx]
      · rw [List.mem_cons]
        simp only [hax, false_or]
        rw [ih]
        constructor
        · rintro ⟨h1, h2⟩
          exact ⟨List.mem_cons_of_mem x h1, fun hs => h2 (List.mem_cons_of_mem x hs)⟩
        · rintro ⟨h1, h2⟩
          rcases List.mem_cons.mp h1 with h1 | h1
          · exact absurd h1 hax
          · refine ⟨h1, fun hs => ?_⟩
            rcases List.mem_cons.mp hs with hs | hs
            · exact hax hs
            · exact h2 hs

theorem nodup_dedupGo {α : Type} [DecidableEq α] :
    ∀ (l seen : List α), (dedupGo seen l).Nodup := by
  intro l
  induction l with
  | nil => simp [dedupGo]
  | cons x xs ih =>
    intro seen
    rw [dedupGo]
    by_cases hx : x ∈ seen
    · rw [if_pos hx]
      exact ih seen
    · rw [if_neg hx]
      refine List.nodup_cons.mpr ⟨fun hmem => ?_, ih (x :: seen)⟩
      exact ((mem_dedupGo x xs (x :: seen)).mp hmem).2 (List.mem_cons_self x seen)

theorem mem_dedupF {α : Type} [DecidableEq α] (a : α) (l : List α) :
    a ∈ dedupF l ↔ a ∈ l := by
  unfold dedupF
  rw [mem_dedupGo]
  simp

theorem nodup_dedupF {α : Type} [DecidableEq α] (l : List α) :
    (dedupF l).Nodup :=
  nodup_dedupGo l []

theorem syntheticKeys_error_of_none {d : LMap}
    (h : ∃ p ∈ d, p.2 = none) : ∃ e, syntheticKeys d = Except.error e := by
  induction d with
  | nil => simp at h
  | cons p rest ih =>
    obtain ⟨k, w⟩ := p
    cases w with
    | none => exact ⟨_, rfl⟩
    | some l =>
      obtain ⟨q, hq, hq2⟩ := h
      rcases List.mem_cons.mp hq with hq | hq
      · rw [hq] at hq2
        simp at hq2
      · obtain ⟨e, he⟩ := ih ⟨q, hq, hq2⟩
        refine ⟨e, ?_⟩
        rw [syntheticKeys, he]
        rfl

theorem syntheticKeys_mem_ok {d : LMap} {adds : List String}
    (h : syntheticKeys d = Except.ok adds) :
    ∀ a, a ∈ adds ↔ ∃ l, (a, some l) ∈ d ∧ starts0x l = true := by
  induction d generalizing adds with
  | nil =>
    rw [syntheticKeys] at h
    have hadds : adds = [] := (Except.ok.inj h).symm
    subst hadds
    simp
  | cons p rest ih =>
    obtain ⟨k, w⟩ := p
    cases w with
    | none => simp [syntheticKeys] at h
    | some l =>
      rw [syntheticKeys] at h
      cases hr : syntheticKeys rest with
      | error e =>
        rw [hr] at h
        simp [Except.map] at h
      | ok radds =>
        rw [hr] at h
        simp only [Except.map] at h
        have hadds : adds = if starts0x l then k :: radds else radds :=
          (Except.ok.inj h).symm
        intro a
        subst hadds
        by_cases hs : starts0x l = true
        · rw [if_pos hs, List.mem_cons]
          constructor
          · rintro (hak | har)
            · exact ⟨l, by rw [hak]; exact List.mem_cons_self _ _, hs⟩
            · obtain ⟨m, hm, hm2⟩ := (ih hr a).mp har
              exact ⟨m, List.mem_cons_of_mem _ hm, hm2⟩
          · rintro ⟨m, hm, hm2⟩
            rcases List.mem_cons.mp hm with hm | hm
            · left
              exact congrArg Prod.fst hm
            · right
              exact (ih hr a).mpr ⟨m, hm, hm2⟩
        · rw [if_neg hs]
          rw [ih hr a]
          constructor
          · rintro ⟨m, hm, hm2⟩
            exact ⟨m, List.mem_cons_of_mem _ hm, hm2⟩
          · rintro ⟨m, hm, hm2⟩
            rcases List.mem_cons.mp hm with hm | hm
            · have hml : m = l := by
                have := congrArg Prod.snd hm
                simpa using this
              rw [hml] at hm2
              exact absurd hm2 hs
            · exact ⟨m, hm, hm2⟩

/-- Inversion of a successful growth step: the frontier computation
succeeded and every returned component is as computed by grow_core. -/
theorem grow_df_ok_inv {i : GrowInput} {r : GrowResult}
    (h : grow_df i = Except.ok r) :
    ∃ adds, frontierAdds (grow_core i).fst i.stop_at_label = Except.ok adds ∧
      r = { seeds := (adds.filter (fun a =>
              decide (a ∉ filterSeeds i.seed_addresses i.nogrow_addresses))).filter
                (fun a => decide (a ∉ i.nogrow_addresses))
            nogrow := i.nogrow_addresses
            labels := (grow_core i).fst
            revLabels := reverseMap (grow_core i).fst
            contracts := (grow_core i).snd.fst
            df := (grow_core i).snd.snd } := by
  unfold grow_df at h
  cases hf : frontierAdds (grow_core i).fst i.stop_at_label with
  | error e =>
    rw [hf] at h
    simp at h
  | ok adds =>
    rw [hf] at h
    exact ⟨adds, rfl, (Except.ok.inj h).symm⟩

theorem grow_core_none {i : GrowInput}
    (hg : i.sdk.graphQuery (filterSeeds i.seed_addresses i.nogrow_addresses)
      i.limit_connections i.rank_by = none) :
    grow_core i = (i.address_label_dict, i.contracts, i.df) := by
  unfold grow_core
  rw [hg]

theorem grow_core_some {i : GrowInput} {recs : List TransferRow}
    (hg : i.sdk.graphQuery (filterSeeds i.seed_addresses i.nogrow_addresses)
      i.limit_connections i.rank_by = some recs) :
    grow_core i =
      (newLabelMap i.address_label_dict (i.sdk.contractsQuery (candidateAddrs i recs))
          (i.sdk.labelsQuery (candidateAddrs i recs)) (candidateAddrs i recs),
       newContracts i.contracts (i.sdk.contractsQuery (candidateAddrs i recs)),
       dedupF (i.df ++ filterSpam i.drop_spam i.spam_symbols recs)) := by
  unfold grow_core
  rw [hg]

/-- Whatever the ledger answered, a prior entry survives into the label map
computed by the growth step (utils.py lines 48 and 99). -/
theorem grow_core_sticky {i : GrowInput} {a : String} {v : Option String}
    (hnd : (i.address_label_dict.map Prod.fst).Nodup)
    (hp : dget i.address_label_dict a = some v) :
    dget (grow_core i).fst a = some v := by
  cases hg : i.sdk.graphQuery (filterSeeds i.seed_addresses i.nogrow_addresses)
      i.limit_connections i.rank_by with
  | none =>
    rw [grow_core_none hg]
    exact hp
  | some recs =>
    rw [grow_core_some hg]
    show dget (newLabelMap i.address_label_dict
      (i.sdk.contractsQuery (candidateAddrs i recs))
      (i.sdk.labelsQuery (candidateAddrs i recs)) (candidateAddrs i recs)) a = some v
    unfold newLabelMap
    exact dget_dupdate_mem _ hnd (dget_some_mem hp)

/-- Every pair produced by the synthetic fallback has a key that was still
absent from the dict (utils.py line 96 filters on that). -/
theorem syntheticPairs_not_has {newAddrs : List String} {d : LMap} :
    ∀ p ∈ syntheticPairs newAddrs d, dhas d p.1 = false := by
  intro p hp
  unfold syntheticPairs at hp
  obtain ⟨x, hx, hxp⟩ := List.mem_map.mp hp
  have h2 := (List.mem_filter.mp hx).2
  rw [← hxp]
  simpa using h2

/-! The claims. -/

/-- C4: label stickiness — if address a maps to L in the prior label map
passed into a growth step (a genuine dict, so keys are unique), then a
still maps to L in the label map returned by that step, regardless of any
label-query or contract-query results for a in that step. -/
theorem c4_label_stickiness (i : GrowInput) (a : String) (L : Option String)
    (hnd : (i.address_label_dict.map Prod.fst).Nodup)
    (hp : dget i.address_label_dict a = some L)
    (r : GrowResult) (h : grow_df i = Except.ok r) :
    dget r.labels a = some L := by
  obtain ⟨adds, hf, hr⟩ := grow_df_ok_inv h
  rw [hr]
  exact grow_core_sticky hnd hp

/-- C4 witness: the prior entry 0xcccc -> Binance survives a concrete
growth step. -/
theorem c4_label_stickiness_witness :
    dget (GrowResult.mk [] [] [("0xcccc", some "Binance")]
      [(some "Binance", ["0xcccc"])] [] []).labels "0xcccc" = some (some "Binance") :=
  c4_label_stickiness iC4 "0xcccc" (some "Binance") (by decide) (by decide) _ rfl

/-- C10: frame effect — the exclusion set returned by a growth step is
exactly the exclusion set that was passed in; grow_df reads it only to
filter the frontier and returns it without adding or removing any element
(utils.py lines 41, 125, 128). -/
theorem c10_exclusions_frame (i : GrowInput) (r : GrowResult)
    (h : grow_df i = Except.ok r) : r.nogrow = i.nogrow_addresses := by
  obtain ⟨adds, hf, hr⟩ := grow_df_ok_inv h
  rw [hr]

/-- C10 witness: a concrete step returns its input exclusion set. -/
theorem c10_exclusions_frame_witness :
    (GrowResult.mk [] ["0xeeee"] [] [] [] []).nogrow = iC10.nogrow_addresses :=
  c10_exclusions_frame iC10 _ rfl

/-- C8: monotonicity — the returned contract set contains the input
contract set and the returned exclusion set contains the input exclusion
set (utils.py lines 74-82 and 128). -/
theorem c8_monotonic_sets (i : GrowInput) (r : GrowResult)
    (h : grow_df i = Except.ok r) :
    i.contracts ⊆ r.contracts ∧ i.nogrow_addresses ⊆ r.nogrow := by
  obtain ⟨adds, hf, hr⟩ := grow_df_ok_inv h
  rw [hr]
  constructor
  · show i.contracts ⊆ (grow_core i).snd.fst
    cases hg : i.sdk.graphQuery (filterSeeds i.seed_addresses i.nogrow_addresses)
        i.limit_connections i.rank_by with
    | none =>
      rw [grow_core_none hg]
      exact List.Subset.refl _
    | some recs =>
      rw [grow_core_some hg]
      show i.contracts ⊆ newContracts i.contracts
        (i.sdk.contractsQuery (candidateAddrs i recs))
      unfold newContracts
      cases i.sdk.contractsQuery (candidateAddrs i recs) with
      | none => exact List.Subset.refl _
      | some crows => exact List.subset_append_right _ _
  · exact List.Subset.refl _

/-- C8 witness: at a concrete input the contract and exclusion sets of the
result contain those of the input. -/
theorem c8_monotonic_sets_witness :
    iC8.contracts ⊆ (GrowResult.mk [] [] [] [] ["0xdddd"] []).contracts ∧
      iC8.nogrow_addresses ⊆ (GrowResult.mk [] [] [] [] ["0xdddd"] []).nogrow :=
  c8_monotonic_sets iC8 _ rfl

/-- C1 counterexample: the address 0xaaaa is in the queried (filtered)
frontier of this growth step, yet the returned exclusion set — which the
claim says must contain every queried address — is empty. -/
theorem c1_queried_not_excluded_cex :
    "0xaaaa" ∈ filterSeeds iC1.seed_addresses iC1.nogrow_addresses ∧
      grow_df iC1 = Except.ok (GrowResult.mk [] [] [] [] [] []) ∧
      "0xaaaa" ∉ resultNogrow (grow_df iC1) :=
  ⟨by decide, rfl, by decide⟩

/-- C1 (amended): every address of the queried (filtered) frontier is
absent from the frontier returned by the same step, but it is not added to
the exclusion set, which is returned exactly as passed in; nothing prevents
such an address from re-entering the frontier of a later step. -/
theorem c1_frontier_excludes_queried (i : GrowInput) (r : GrowResult)
    (h : grow_df i = Except.ok r) :
    r.nogrow = i.nogrow_addresses ∧
      ∀ a ∈ filterSeeds i.seed_addresses i.nogrow_addresses, a ∉ r.seeds := by
  obtain ⟨adds, hf, hr⟩ := grow_df_ok_inv h
  rw [hr]
  refine ⟨rfl, fun a ha hmem => ?_⟩
  have h1 := (List.mem_filter.mp hmem).1
  have h2 := (List.mem_filter.mp h1).2
  rw [decide_eq_true_eq] at h2
  exact h2 ha

/-- C1 (amended) witness at a concrete input. -/
theorem c1_frontier_excludes_queried_witness :
    (GrowResult.mk [] [] [] [] [] []).nogrow = iC1.nogrow_addresses ∧
      ∀ a ∈ filterSeeds iC1.seed_addresses iC1.nogrow_addresses,
        a ∉ (GrowResult.mk [] [] [] [] [] []).seeds :=
  c1_frontier_excludes_queried iC1 _ rfl

/-- C7: spam filtering — a transfer record survives the filter pipeline of
the growth step iff it came from the query result and: its symbol is
non-null whenever drop_spam is set, its symbol (when present) is not a
caller-supplied spam symbol, and its decimals field is not zero (utils.py
lines 54-61). -/
theorem c7_spam_filtering (drop_spam : Bool) (spam_symbols : List String)
    (rows : List TransferRow) (rec : TransferRow) :
    rec ∈ filterSpam drop_spam spam_symbols rows ↔
      rec ∈ rows ∧ (drop_spam = true → rec.symbol ≠ none) ∧
        (∀ s, rec.symbol = some s → s ∉ spam_symbols) ∧
        rec.decimals ≠ some 0 := by
  unfold filterSpam dropZeroDecimals dropSpamSymbols dropNullSymbol
  cases drop_spam with
  | false =>
    cases hsym : rec.symbol with
    | none => simp [List.mem_filter, hsym]
    | some s =>
      simp [List.mem_filter, hsym]
      tauto
  | true =>
    cases hsym : rec.symbol with
    | none => simp [List.mem_filter, hsym]
    | some s =>
      simp [List.mem_filter, hsym]
      tauto

/-- C6 counterexample: at this input the filtered frontier is empty, yet
grow_df still issues a transfer query with an empty address list to the
ledger client, and the frontier it returns differs from the input frontier
(it is recomputed from the prior label map), so the state is not returned
unchanged. -/
theorem c6_empty_frontier_still_queries_cex :
    filterSeeds iC6.seed_addresses iC6.nogrow_addresses = [] ∧
      grow_calls iC6 = [QueryCall.graph [] iC6.limit_connections iC6.rank_by] ∧
      resultSeeds (grow_df iC6) ≠ iC6.seed_addresses :=
  ⟨rfl, rfl, by decide⟩

/-- C6 (amended): when the frontier minus the exclusion set is empty the
growth step does not short-circuit: it still issues exactly one ledger
call, the transfer query with zero addresses; if that query reports no
records, the label map, contract set, dataset and exclusion set come back
unchanged, while the next frontier is recomputed from the prior label map
rather than returned as passed in. -/
theorem c6_empty_frontier_behavior (i : GrowInput)
    (hempty : filterSeeds i.seed_addresses i.nogrow_addresses = [])
    (hg : i.sdk.graphQuery [] i.limit_connections i.rank_by = none)
    (r : GrowResult) (h : grow_df i = Except.ok r) :
    grow_calls i = [QueryCall.graph [] i.limit_connections i.rank_by] ∧
      r.labels = i.address_label_dict ∧ r.contracts = i.contracts ∧
      r.df = i.df ∧ r.nogrow = i.nogrow_addresses := by
  have hg2 : i.sdk.graphQuery (filterSeeds i.seed_addresses i.nogrow_addresses)
      i.limit_connections i.rank_by = none := by
    rw [hempty]
    exact hg
  obtain ⟨adds, hf, hr⟩ := grow_df_ok_inv h
  refine ⟨?_, ?_, ?_, ?_, ?_⟩
  · unfold grow_calls
    rw [hempty, hg]
  · rw [hr]
    show (grow_core i).fst = i.address_label_dict
    rw [grow_core_none hg2]
  · rw [hr]
    show (grow_core i).snd.fst = i.contracts
    rw [grow_core_none hg2]
  · rw [hr]
    show (grow_core i).snd.snd = i.df
    rw [grow_core_none hg2]
  · rw [hr]

/-- C6 (amended) witness at a concrete input. -/
theorem c6_empty_frontier_behavior_witness :
    grow_calls iC6 = [QueryCall.graph [] iC6.limit_connections iC6.rank_by] ∧
      (GrowResult.mk ["0xbbbb"] ["0xaaaa"] [("0xbbbb", some "0xbbbb")]
        [(some "0xbbbb", ["0xbbbb"])] [] []).labels = iC6.address_label_dict ∧
      (GrowResult.mk ["0xbbbb"] ["0xaaaa"] [("0xbbbb", some "0xbbbb")]
        [(some "0xbbbb", ["0xbbbb"])] [] []).contracts = iC6.contracts ∧
      (GrowResult.mk ["0xbbbb"] ["0xaaaa"] [("0xbbbb", some "0xbbbb")]
        [(some "0xbbbb", ["0xbbbb"])] [] []).df = iC6.df ∧
      (GrowResult.mk ["0xbbbb"] ["0xaaaa"] [("0xbbbb", some "0xbbbb")]
        [(some "0xbbbb", ["0xbbbb"])] [] []).nogrow = iC6.nogrow_addresses :=
  c6_empty_frontier_behavior iC6 rfl rfl _ rfl

/-- C2 (code bug): the comment at utils.py line 117 says contracts are
excluded from the next frontier, and the claim requires it, but the code
never subtracts the contract set: at this input the contract address
0xbbbb is returned both in the contract set and in the next frontier. -/
theorem c2_contract_in_frontier_bug :
    grow_df iC2 = Except.ok (GrowResult.mk ["0xbbbb"] []
      [("0xaaaa", some "0xaaaa"), ("0xbbbb", some "0xbbbb")]
      [(some "0xaaaa", ["0xaaaa"]), (some "0xbbbb", ["0xbbbb"])]
      ["0xbbbb"] [rowAB]) ∧
      "0xbbbb" ∈ resultSeeds (grow_df iC2) ∧
      "0xbbbb" ∈ resultContracts (grow_df iC2) :=
  ⟨rfl, by decide, by decide⟩

/-- C3 (code bug): the comment at utils.py line 103 says duplicate
tx_hash rows are removed, but drop_duplicates() deduplicates whole rows
only: merging a record that repeats the accumulated tx_hash h1 with a
different usd amount leaves two records with tx_hash h1 in the returned
dataset. -/
theorem c3_duplicate_txhash_bug :
    (iC3.df.filter (fun rec => decide (rec.tx_hash = some "h1"))).length = 1 ∧
      ((resultDf (grow_df iC3)).filter
        (fun rec => decide (rec.tx_hash = some "h1"))).length = 2 :=
  ⟨rfl, rfl⟩

/-- C9 counterexample: the ledger returns a label row whose label field is
null; instead of dropping the row with a warning, the growth step raises
(the Python AttributeError from label.startswith at utils.py line 120). -/
theorem c9_malformed_label_raises_cex :
    grow_df iC9 =
      Except.error "AttributeError: NoneType object has no attribute startswith" :=
  rfl

/-- C9 (amended): grow_df performs no malformed-row validation and never
emits a warning; a row missing a required field is carried along as-is,
and whenever a null label value reaches the returned label map (for
example from a label-query row with a null label field) with stop_at_label
set, the growth step raises an error instead of completing. -/
theorem c9_no_row_validation (i : GrowInput) (h1 : i.stop_at_label = true)
    (h2 : ∃ p ∈ (grow_core i).fst, p.2 = none) :
    ∃ e, grow_df i = Except.error e := by
  obtain ⟨e, he⟩ := syntheticKeys_error_of_none h2
  refine ⟨e, ?_⟩
  have hfa : frontierAdds (grow_core i).fst i.stop_at_label = Except.error e := by
    unfold frontierAdds
    rw [h1]
    simpa using he
  unfold grow_df
  rw [hfa]

/-- C9 (amended) witness: the null-label row reaches the label map and the
concrete growth step errors. -/
theorem c9_no_row_validation_witness : ∃ e, grow_df iC9 = Except.error e :=
  c9_no_row_validation iC9 rfl ⟨("0xbbbb", none), by decide, rfl⟩

/-- The classifier precedence, stated on newLabelMap for genuine dict
inputs (unique keys) when both the contract and label queries returned
rows: prior entry, else label row, else non-null-label contract row, else
synthesized short label; and every candidate address gets an entry. -/
theorem newLabelMap_spec (prior : LMap) (crows : List ContractRow)
    (lrows : List LabelRow) (NA : List String)
    (hNA : NA.Nodup)
    (hndP : (prior.map Prod.fst).Nodup)
    (hndL : (lrows.map (fun q => q.address)).Nodup)
    (hndC : (crows.map (fun q => q.address)).Nodup) :
    (∀ x ∈ NA, dget (newLabelMap prior (some crows) (some lrows) NA) x ≠ none)
    ∧ (∀ a v, dget prior a = some v →
        dget (newLabelMap prior (some crows) (some lrows) NA) a = some v)
    ∧ (∀ a v, dhas prior a = false → (a, v) ∈ labelPairs lrows →
        dget (newLabelMap prior (some crows) (some lrows) NA) a = some v)
    ∧ (∀ a v, dhas prior a = false → (∀ p ∈ labelPairs lrows, p.1 ≠ a) →
        (a, v) ∈ contractPairs crows →
        dget (newLabelMap prior (some crows) (some lrows) NA) a = some v)
    ∧ (∀ a, a ∈ NA → dhas prior a = false →
        (∀ p ∈ labelPairs lrows, p.1 ≠ a) →
        (∀ p ∈ contractPairs crows, p.1 ≠ a) →
        dget (newLabelMap prior (some crows) (some lrows) NA) a =
          some (some (shortLabel a))) := by
  have hndCP : ((contractPairs crows).map Prod.fst).Nodup := by
    unfold contractPairs
    rw [List.map_map]
    exact List.Nodup.sublist (List.Sublist.map _ (List.filter_sublist _)) hndC
  have hndLP : ((labelPairs lrows).map Prod.fst).Nodup := by
    unfold labelPairs
    rw [List.map_map]
    exact hndL
  have hM : newLabelMap prior (some crows) (some lrows) NA =
      dupdate (dupdate (dupdate (dupdate [] (contractPairs crows)) (labelPairs lrows))
        (syntheticPairs NA
          (dupdate (dupdate [] (contractPairs crows)) (labelPairs lrows)))) prior := rfl
  have hSPne : ∀ (a : String),
      dhas (dupdate (dupdate [] (contractPairs crows)) (labelPairs lrows)) a = true →
      ∀ p ∈ syntheticPairs NA
        (dupdate (dupdate [] (contractPairs crows)) (labelPairs lrows)), p.1 ≠ a := by
    intro a ha p hp hpa
    have hf := syntheticPairs_not_has p hp
    rw [hpa] at hf
    exact Bool.noConfusion (hf.symm.trans ha)
  have hSPkeys : (syntheticPairs NA
      (dupdate (dupdate [] (contractPairs crows)) (labelPairs lrows))).map Prod.fst =
      NA.filter (fun x =>
        !dhas (dupdate (dupdate [] (contractPairs crows)) (labelPairs lrows)) x) := by
    unfold syntheticPairs
    rw [List.map_map]
    exact List.map_id _
  have hmemSPgen : ∀ (a : String), a ∈ NA →
      dhas (dupdate (dupdate [] (contractPairs crows)) (labelPairs lrows)) a = false →
      (a, some (shortLabel a)) ∈ syntheticPairs NA
        (dupdate (dupdate [] (contractPairs crows)) (labelPairs lrows)) := by
    intro a haNA hfalse
    unfold syntheticPairs
    refine List.mem_map.mpr ⟨a, ?_, rfl⟩
    refine List.mem_filter.mpr ⟨haNA, ?_⟩
    rw [hfalse]
    rfl
  rw [hM]
  refine ⟨?_, ?_, ?_, ?_, ?_⟩
  · intro x hx hnone
    have hx3 : dhas (dupdate (dupdate (dupdate [] (contractPairs crows))
        (labelPairs lrows)) (syntheticPairs NA
          (dupdate (dupdate [] (contractPairs crows)) (labelPairs lrows)))) x = true := by
      by_cases hx2 : dhas (dupdate (dupdate [] (contractPairs crows))
          (labelPairs lrows)) x = true
      · exact dhas_dupdate_mono hx2
      · have hx2f : dhas (dupdate (dupdate [] (contractPairs crows))
            (labelPairs lrows)) x = false := by
          simpa using hx2
        exact dhas_dupdate_of_mem _ (hmemSPgen x hx hx2f)
    have hx4 : dhas (dupdate (dupdate (dupdate (dupdate [] (contractPairs crows))
        (labelPairs lrows)) (syntheticPairs NA
          (dupdate (dupdate [] (contractPairs crows)) (labelPairs lrows)))) prior)
        x = true := dhas_dupdate_mono hx3
    unfold dhas at hx4
    rw [hnone] at hx4
    simp at hx4
  · intro a v hp
    exact dget_dupdate_mem _ hndP (dget_some_mem hp)
  · intro a v hP hmem
    rw [dget_dupdate_not_mem _ (dhas_false_forall hP)]
    have hadl2 : dhas (dupdate (dupdate [] (contractPairs crows))
        (labelPairs lrows)) a = true := dhas_dupdate_of_mem _ hmem
    rw [dget_dupdate_not_mem _ (hSPne a hadl2)]
    exact dget_dupdate_mem _ hndLP hmem
  · intro a v hP hLPne hmem
    rw [dget_dupdate_not_mem _ (dhas_false_forall hP)]
    have hadl1 : dhas (dupdate [] (contractPairs crows)) a = true :=
      dhas_dupdate_of_mem _ hmem
    have hadl2 : dhas (dupdate (dupdate [] (contractPairs crows))
        (labelPairs lrows)) a = true := dhas_dupdate_mono hadl1
    rw [dget_dupdate_not_mem _ (hSPne a hadl2)]
    rw [dget_dupdate_not_mem _ hLPne]
    exact dget_dupdate_mem _ hndCP hmem
  · intro a haNA hP hLPne hCPne
    rw [dget_dupdate_not_mem _ (dhas_false_forall hP)]
    have hadl2 : dget (dupdate (dupdate [] (contractPairs crows))
        (labelPairs lrows)) a = none := by
      rw [dget_dupdate_not_mem _ hLPne, dget_dupdate_not_mem _ hCPne]
      rfl
    have hadl2f : dhas (dupdate (dupdate [] (contractPairs crows))
        (labelPairs lrows)) a = false := dhas_false_iff.mpr hadl2
    have hndSP : ((syntheticPairs NA
        (dupdate (dupdate [] (contractPairs crows)) (labelPairs lrows))).map
          Prod.fst).Nodup := by
      rw [hSPkeys]
      exact List.Nodup.filter _ hNA
    exact dget_dupdate_mem _ hndSP (hmemSPgen a haNA hadl2f)

/-- C5: label precedence — when the growth step processed transfer records
and both follow-up queries returned rows (all inputs genuine dicts and
duplicate-free result sets), the returned label map assigns labels by the
precedence prior-map entry, else label-query row, else contract-query row
with non-null label field, else the synthesized short label (first 3 plus
last 3 characters); and every endpoint address of the surviving transfer
records has an entry. -/
theorem c5_label_precedence (i : GrowInput) (recs : List TransferRow)
    (crows : List ContractRow) (lrows : List LabelRow) (r : GrowResult)
    (hg : i.sdk.graphQuery (filterSeeds i.seed_addresses i.nogrow_addresses)
      i.limit_connections i.rank_by = some recs)
    (hc : i.sdk.contractsQuery (candidateAddrs i recs) = some crows)
    (hl : i.sdk.labelsQuery (candidateAddrs i recs) = some lrows)
    (hndP : (i.address_label_dict.map Prod.fst).Nodup)
    (hndL : (lrows.map (fun q => q.address)).Nodup)
    (hndC : (crows.map (fun q => q.address)).Nodup)
    (h : grow_df i = Except.ok r) :
    (∀ x ∈ candidateAddrs i recs, dget r.labels x ≠ none)
    ∧ (∀ a v, dget i.address_label_dict a = some v → dget r.labels a = some v)
    ∧ (∀ a v, dhas i.address_label_dict a = false →
        (a, v) ∈ labelPairs lrows → dget r.labels a = some v)
    ∧ (∀ a v, dhas i.address_label_dict a = false →
        (∀ p ∈ labelPairs lrows, p.1 ≠ a) →
        (a, v) ∈ contractPairs crows → dget r.labels a = some v)
    ∧ (∀ a, a ∈ candidateAddrs i recs →
        dhas i.address_label_dict a = false →
        (∀ p ∈ labelPairs lrows, p.1 ≠ a) →
        (∀ p ∈ contractPairs crows, p.1 ≠ a) →
        dget r.labels a = some (some (shortLabel a))) := by
  obtain ⟨adds, hf, hr⟩ := grow_df_ok_inv h
  have hlab : r.labels = newLabelMap i.address_label_dict (some crows)
      (some lrows) (candidateAddrs i recs) := by
    rw [hr]
    show (grow_core i).fst = _
    rw [grow_core_some hg]
    show newLabelMap i.address_label_dict
      (i.sdk.contractsQuery (candidateAddrs i recs))
      (i.sdk.labelsQuery (candidateAddrs i recs)) (candidateAddrs i recs) = _
    rw [hc, hl]
  rw [hlab]
  exact newLabelMap_spec i.address_label_dict crows lrows (candidateAddrs i recs)
    (nodup_dedupF _) hndP hndL hndC

/-- C5 witness: all four precedence levels at a concrete growth step. -/
theorem c5_label_precedence_witness :
    dget (resultLabels (grow_df iC5)) "0xbbbb" = some (some "Prior") ∧
      dget (resultLabels (grow_df iC5)) "0xcccc" = some (some "Coinbase") ∧
      dget (resultLabels (grow_df iC5)) "0xdddd" = some (some "TokenD") ∧
      dget (resultLabels (grow_df iC5)) "0xaaaa" =
        some (some (shortLabel "0xaaaa")) := by
  have h := c5_label_precedence iC5 recsC5 crowsC5 lrowsC5 _ rfl rfl rfl
    (by decide) (by decide) (by decide) rfl
  exact ⟨h.2.1 "0xbbbb" (some "Prior") (by decide),
    h.2.2.1 "0xcccc" (some "Coinbase") (by decide) (by decide),
    h.2.2.2.1 "0xdddd" (some "TokenD") (by decide) (by decide) (by decide),
    h.2.2.2.2 "0xaaaa" (by decide) (by decide) (by decide) (by decide)⟩

end BlockGraph

